import Mathlib

/-!
# Verification of the `log` module (src/log.py)

A shallow embedding of the single-file Python logging facility.

Modelling conventions:
* Python's `Level` enum (`auto()` numbering) becomes the inductive `Level`
  with `Level.value` giving the enum's numeric values Error=1 .. Debug=5.
* Arguments that may be a `str` or a `Level` become `StrOrLevel`.
* Python exceptions become the `PyErr` type.  An operation that may raise is
  a function returning its performed side effects together with an
  `Option PyErr` (writes performed before the raise are kept), or an
  `Except` when no side effect can precede the raise.
* The Python level stacks are lists whose *last* element is the top
  (`list[-1]`); here they are kept reversed, so the head of the Lean list is
  the stack top and Python's `append`/`pop` become cons/tail.
* A `Log` instance carries the identities (paths) of its file sinks; a call
  to `log` returns the list of chunks written, one `(path, chunk)` pair per
  write, plus the lines printed to stdout, instead of performing I/O.
* Time is an explicit parameter (`Datetime`): `dt.datetime.now().astimezone(utc)`
  is modelled by passing the current UTC time into `log`.
* The proces-wide slot `_LOG` is threaded explicitly as an `Option Log`
  argument and result of the free (facade) functions.
-/

/-- The `Level` enum of src/log.py (`Error`..`Debug`, values from `auto()`). -/
inductive Level where
  | Error
  | Warning
  | Log
  | Info
  | Debug
deriving DecidableEq

/-- The numeric value of each enum member: `auto()` numbers them 1..5. -/
def Level.value : Level → Nat
  | .Error => 1
  | .Warning => 2
  | .Log => 3
  | .Info => 4
  | .Debug => 5

/-- `level.name.lower()` for each member (used by `stdout_formatter`). -/
def Level.nameLower : Level → String
  | .Error => "error"
  | .Warning => "warning"
  | .Log => "log"
  | .Info => "info"
  | .Debug => "debug"

/-- Rank table as written in the spec (§8): rank(Error)=1 (most urgent),
rank(Warning)=2, rank(Log)=3, rank(Info)=4, rank(Debug)=5.  Defined from the
spec's words, separately from `Level.value`, so that theorems can state the
filtering inequality in the spec's vocabulary. -/
def specRank : Level → Nat
  | .Error => 1
  | .Warning => 2
  | .Log => 3
  | .Info => 4
  | .Debug => 5

/-- A value that is either a Python `str` or a `Level` (the duck-typed
`level` arguments of the module). -/
inductive StrOrLevel where
  | str (s : String)
  | lvl (l : Level)
deriving DecidableEq

/-- Python exceptions raised by the module. -/
inductive PyErr where
  /-- `ValueError`, with its argument strings (`raise ValueError` has none). -/
  | valueError (args : List String)
  /-- `AttributeError`: e.g. `level.value` when `level` is a `str`. -/
  | attributeError
  /-- `IndexError`: e.g. `list[-1]` on an empty list. -/
  | indexError
deriving DecidableEq

/-- `_ensure_level` of src/log.py: a `str` is looked up in the dict of the
five lower-case names (a `KeyError` is turned into
`ValueError(f"Invalid level name: {level}")`); any non-`str` value is
returned unchanged. -/
def _ensure_level : StrOrLevel → Except PyErr Level
  | .str s =>
      if s = "error" then .ok .Error
      else if s = "warning" then .ok .Warning
      else if s = "log" then .ok .Log
      else if s = "info" then .ok .Info
      else if s = "debug" then .ok .Debug
      else .error (.valueError ["Invalid level name: " ++ s])
  | .lvl l => .ok l

/-- The `_colors` dict: ANSI color escape per level. -/
def _colors : Level → String
  | .Error => "\x1b[31m"
  | .Warning => "\x1b[33m"
  | .Log => "\x1b[32m"
  | .Info => "\x1b[34m"
  | .Debug => "\x1b[35m"

/-- The `_reset` ANSI escape. -/
def _reset : String := "\x1b[0m"

/-- An aware UTC datetime (the value of
`dt.datetime.now().astimezone(dt.timezone.utc)`), split into its fields. -/
structure Datetime where
  year : Nat
  month : Nat
  day : Nat
  hour : Nat
  minute : Nat
  second : Nat
  microsecond : Nat
deriving DecidableEq

/-- Field-width bounds under which a `Datetime`'s textual forms are the
zero-padded fixed-width ones (every real `datetime` satisfies them). -/
def Datetime.valid (t : Datetime) : Prop :=
  t.year < 10000 ∧ t.month < 100 ∧ t.day < 100 ∧ t.hour < 100 ∧
    t.minute < 100 ∧ t.second < 100 ∧ t.microsecond < 1000000

instance (t : Datetime) : Decidable t.valid := by
  unfold Datetime.valid; infer_instance

/-- The decimal digit character for `d < 10`. -/
def digitChar (d : Nat) : Char := Char.ofNat (48 + d)

/-- `n` printed in exactly `w` zero-padded decimal digits (most significant
first); faithful to Python's `%02d`-style padding for `n < 10 ^ w`. -/
def padDigits : Nat → Nat → List Char
  | 0, _ => []
  | w + 1, n => digitChar (n / 10 ^ w) :: padDigits w (n % 10 ^ w)

/-- The UTC offset suffix `+00:00` of an aware UTC datetime's `isoformat`. -/
def tzSuffix : List Char := ['+', '0', '0', ':', '0', '0']

/-- The character sequence of `datetime.isoformat(sep)` for an aware UTC
datetime: `YYYY-MM-DD<sep>HH:MM:SS[.ffffff]+00:00`, the microsecond part
omitted exactly when it is zero (CPython's `isoformat`). -/
def isoCharsSep (sep : Char) (t : Datetime) : List Char :=
  padDigits 4 t.year ++ ['-'] ++ padDigits 2 t.month ++ ['-'] ++ padDigits 2 t.day
    ++ [sep] ++ padDigits 2 t.hour ++ [':'] ++ padDigits 2 t.minute ++ [':']
    ++ padDigits 2 t.second
    ++ (if t.microsecond = 0 then [] else ['.'] ++ padDigits 6 t.microsecond)
    ++ tzSuffix

/-- `record["time"].isoformat()` (the `"T"` separator). -/
def isoChars (t : Datetime) : List Char := isoCharsSep 'T' t

/-- The record dict built by `Log.log`: `time`, `level`, `message` keys, in
that insertion order.  The message is modelled as text. -/
structure Record where
  time : Datetime
  level : Level
  message : String
deriving DecidableEq

/-- One character's rendering inside a JSON string under
`json.dumps(..., ensure_ascii=True)`: `"` and `\` get two-character escapes,
the other printable ASCII characters `0x20..0x7e` stand for themselves,
the short control escapes are used for `\b \t \n \f \r`, and every other
character becomes `\uXXXX` (a surrogate pair for code points above
`0xFFFF`). -/
def jsonEscapeChar (c : Char) : List Char :=
  let n := c.toNat
  if c = '"' then ['\\', '"']
  else if c = '\\' then ['\\', '\\']
  else if 32 ≤ n ∧ n ≤ 126 then [c]
  else if n = 8 then ['\\', 'b']
  else if n = 9 then ['\\', 't']
  else if n = 10 then ['\\', 'n']
  else if n = 12 then ['\\', 'f']
  else if n = 13 then ['\\', 'r']
  else if n < 65536 then uEscape n
  else uEscape (55296 + (n - 65536) / 1024) ++ uEscape (56320 + (n - 65536) % 1024)
where
  /-- Lower-case hexadecimal digit, as CPython's encoder emits. -/
  hexDigitChar (d : Nat) : Char := if d < 10 then digitChar d else Char.ofNat (87 + d)
  /-- A `\uXXXX` escape of a (≤ 16 bit) value. -/
  uEscape (n : Nat) : List Char :=
    ['\\', 'u', hexDigitChar (n / 4096 % 16), hexDigitChar (n / 256 % 16),
      hexDigitChar (n / 16 % 16), hexDigitChar (n % 16)]

/-- A JSON string literal: quote, escaped content, quote. -/
def jsonStringChars (cs : List Char) : List Char :=
  '"' :: cs.flatMap jsonEscapeChar ++ ['"']

/-- A printable ASCII character that JSON escaping leaves verbatim. -/
def plainChar (c : Char) : Prop :=
  32 ≤ c.toNat ∧ c.toNat ≤ 126 ∧ c ≠ '"' ∧ c ≠ '\\'

instance : DecidablePred plainChar := fun c => by
  unfold plainChar; infer_instance

/-- The opening `{"time": ` of the serialized record (insertion order of
the record dict built by `Log.log`). -/
def jsonSegTime : List Char := ['\x7b', '"', 't', 'i', 'm', 'e', '"', ':', ' ']

/-- The `, "level": ` separator-and-key segment. -/
def jsonSegLevel : List Char := [',', ' ', '"', 'l', 'e', 'v', 'e', 'l', '"', ':', ' ']

/-- The `, "message": ` separator-and-key segment. -/
def jsonSegMessage : List Char :=
  [',', ' ', '"', 'm', 'e', 's', 's', 'a', 'g', 'e', '"', ':', ' ']

/-- The closing brace. -/
def jsonSegClose : List Char := ['\x7d']

/-- `json_formatter` of src/log.py: deep-copies the record, replaces `time`
by its `isoformat()` string and `level` by its numeric `.value`, and renders
`json.dumps(record, ensure_ascii=True)` — with `json.dumps`'s default
separators this is
`{"time": "<iso>", "level": <value>, "message": "<escaped message>"}`
(insertion order of the record dict). -/
def json_formatter (record : Record) : String :=
  String.mk (jsonSegTime ++ jsonStringChars (isoChars record.time)
    ++ jsonSegLevel ++ (Nat.repr record.level.value).data
    ++ jsonSegMessage ++ jsonStringChars record.message.data
    ++ jsonSegClose)

/-- `stdout_formatter` of src/log.py:
`f"{time} - {level_str} - {message}"` where `str(time)` is
`isoformat(sep=' ')` and `level_str` wraps the lower-case level name in its
ANSI color and the reset escape. -/
def stdout_formatter (record : Record) : String :=
  String.mk (isoCharsSep ' ' record.time) ++ " - "
    ++ _colors record.level ++ record.level.nameLower ++ _reset
    ++ " - " ++ record.message

/-- The `Log` class's instance attribute state.  The open file objects
`_ofiles` are not part of the state; writes to them are returned as traces
by the operations.  Sinks are identified by their paths, in construction
order (`_opaths`). -/
structure Log where
  _file_levels : List Level
  _levels : List Level
  _stdout : Bool
  _opaths : List String
  _formatter : Record → String
  _stdout_formatter : Record → String

/-- `Log.__init__`: stacks seeded with one element each
(`[file_level]`, and `[file_level] if stdout_level is None else [stdout_level]`),
flags and formatters stored, sinks recorded in argument order. -/
def Log.init (opaths : List String) (file_level : Level)
    (formatter : Record → String) (stdout : Bool) (stdout_level : Option Level)
    (stdoutFormatter : Record → String) : Log :=
  { _file_levels := [file_level]
    _levels := match stdout_level with
      | none => [file_level]
      | some l => [l]
    _stdout := stdout
    _opaths := opaths
    _formatter := formatter
    _stdout_formatter := stdoutFormatter }

/-- `Log(*opaths)` with every keyword argument left at its default
(`file_level=Level.Log`, `formatter=json_formatter`, `stdout=True`,
`stdout_level=None`, `stdout_formatter=stdout_formatter`). -/
def Log.initDefault (opaths : List String) : Log :=
  Log.init opaths Level.Log json_formatter true none stdout_formatter

/-- `self._file_levels[-1].value` / `self._levels[-1].value`: the value of
the stack top; `IndexError` on an empty list. -/
def topValue : List Level → Except PyErr Nat
  | [] => .error .indexError
  | t :: _ => .ok t.value

/-- `Log.file_level`: with `new_level=None`, pop — raising `ValueError`
(before any mutation) when the stack length is `< 2`; otherwise push
`_ensure_level(new_level)`.  Returns the post state together with the
Python return value (`Except`: the popped level when popping, `None` when
pushing). -/
def Log.file_level (lg : Log) (new_level : Option StrOrLevel) :
    Log × Except PyErr (Option Level) :=
  match new_level with
  | none =>
      match lg._file_levels with
      | t :: r :: rest => ({ lg with _file_levels := r :: rest }, .ok (some t))
      | _ => (lg, .error (.valueError []))
  | some l =>
      match _ensure_level l with
      | .ok l => ({ lg with _file_levels := l :: lg._file_levels }, .ok none)
      | .error e => (lg, .error e)

/-- `Log.level`: the same operation on the stdout stack `_levels`. -/
def Log.level (lg : Log) (new_level : Option StrOrLevel) :
    Log × Except PyErr (Option Level) :=
  match new_level with
  | none =>
      match lg._levels with
      | t :: r :: rest => ({ lg with _levels := r :: rest }, .ok (some t))
      | _ => (lg, .error (.valueError []))
  | some l =>
      match _ensure_level l with
      | .ok l => ({ lg with _levels := l :: lg._levels }, .ok none)
      | .error e => (lg, .error e)

/-- The observable outcome of one `Log.log` call: the chunks written to file
sinks (one `(path, chunk)` pair per `ofile.write`, in sink order), the lines
printed to stdout, and the exception if one was raised (writes performed
before the raise are kept). -/
structure LogOutput where
  fileWrites : List (String × String)
  printed : List String
  exc : Option PyErr
deriving DecidableEq

/-- `Log.log(message, level)`: builds the record, then
`if self._file_levels[-1].value >= level.value:` writes
`f"{record_str}\n"` (the `_formatter` rendering plus newline) to every file
sink, then `if self._stdout and self._levels[-1].value >= level.value:`
prints the `_stdout_formatter` rendering.  Evaluation order of the first
condition: `self._file_levels[-1].value` first (`IndexError` if the stack
is empty), then `level.value` (`AttributeError` if `level` is a `str`).
The second condition short-circuits on `self._stdout`.  `self` is never
assigned to, so the returned state is the input state. -/
def Log.log (lg : Log) (time : Datetime) (message : String)
    (level : StrOrLevel) : Log × LogOutput :=
  match level with
  | .str _ =>
      match lg._file_levels with
      | [] => (lg, ⟨[], [], some .indexError⟩)
      | _ :: _ => (lg, ⟨[], [], some .attributeError⟩)
  | .lvl l =>
      let record : Record := { time := time, level := l, message := message }
      match lg._file_levels with
      | [] => (lg, ⟨[], [], some .indexError⟩)
      | ftop :: _ =>
          let fileWrites :=
            if ftop.value ≥ l.value then
              lg._opaths.map (fun p => (p, lg._formatter record ++ "\n"))
            else []
          if lg._stdout then
            match lg._levels with
            | [] => (lg, ⟨fileWrites, [], some .indexError⟩)
            | ctop :: _ =>
                let printed :=
                  if ctop.value ≥ l.value then [lg._stdout_formatter record]
                  else []
                (lg, ⟨fileWrites, printed, none⟩)
          else (lg, ⟨fileWrites, [], none⟩)

/-- `Log.error`: `self.log(message, Level.Error)`. -/
def Log.error (lg : Log) (time : Datetime) (message : String) : Log × LogOutput :=
  lg.log time message (.lvl .Error)

/-- `Log.warn`: `self.log(message, Level.Warning)`. -/
def Log.warn (lg : Log) (time : Datetime) (message : String) : Log × LogOutput :=
  lg.log time message (.lvl .Warning)

/-- `Log.info`: `self.log(message, Level.Info)`. -/
def Log.info (lg : Log) (time : Datetime) (message : String) : Log × LogOutput :=
  lg.log time message (.lvl .Info)

/-- `Log.debug`: `self.log(message, Level.Debug)`. -/
def Log.debug (lg : Log) (time : Datetime) (message : String) : Log × LogOutput :=
  lg.log time message (.lvl .Debug)

/-- `Log.set_global`: installs `self` in the `_LOG` slot and returns the
previous incumbent.  The slot is threaded explicitly: the result is
(new slot contents, Python return value). -/
def Log.set_global (lg : Log) (slot : Option Log) : Option Log × Option Log :=
  (some lg, slot)

/-- Free function `file_level` (facade): `if _LOG is not None:
_LOG.file_level(level)` — the member call's result is discarded and the
function body has no `return`, so on success the facade returns `None`;
an exception from the member call propagates. -/
def file_level (slot : Option Log) (level : Option StrOrLevel) :
    Option Log × Except PyErr (Option Level) :=
  match slot with
  | none => (none, .ok none)
  | some lg =>
      match lg.file_level level with
      | (lg2, .ok _) => (some lg2, .ok none)
      | (lg2, .error e) => (some lg2, .error e)

/-- Free function `level` (facade): same as `file_level` for the stdout
stack; the member result is likewise discarded (no `return`). -/
def level (slot : Option Log) (lvl : Option StrOrLevel) :
    Option Log × Except PyErr (Option Level) :=
  match slot with
  | none => (none, .ok none)
  | some lg =>
      match lg.level lvl with
      | (lg2, .ok _) => (some lg2, .ok none)
      | (lg2, .error e) => (some lg2, .error e)

/-- Free function `log` (facade): `if _LOG is not None: _LOG.log(message, level)`;
a no-op when no global logger is installed. -/
def log (slot : Option Log) (time : Datetime) (message : String)
    (level : StrOrLevel) : Option Log × LogOutput :=
  match slot with
  | none => (none, ⟨[], [], none⟩)
  | some lg =>
      match lg.log time message level with
      | (lg2, out) => (some lg2, out)

/-- Free function `error` (facade): `log(message, Level.Error)`. -/
def error (slot : Option Log) (time : Datetime) (message : String) :
    Option Log × LogOutput :=
  log slot time message (.lvl .Error)

/-- Free function `warn` (facade): `log(message, Level.Warning)`. -/
def warn (slot : Option Log) (time : Datetime) (message : String) :
    Option Log × LogOutput :=
  log slot time message (.lvl .Warning)

/-- Free function `info` (facade): `log(message, Level.Info)`. -/
def info (slot : Option Log) (time : Datetime) (message : String) :
    Option Log × LogOutput :=
  log slot time message (.lvl .Info)

/-- Free function `debug` (facade): `log(message, Level.Debug)`. -/
def debug (slot : Option Log) (time : Datetime) (message : String) :
    Option Log × LogOutput :=
  log slot time message (.lvl .Debug)

/-! ## A matching parser for the machine format

The spec requires the machine-formatted line to be round-trippable "by a
matching parser, though no parser is required to exist within this scope".
The definitions below are that matching parser. -/

/-- Consume an expected literal prefix. -/
def expect : List Char → List Char → Option (List Char)
  | [], cs => some cs
  | p :: ps, c :: cs => if c = p then expect ps cs else none
  | _ :: _, [] => none

/-- The value of a decimal digit character, `none` for non-digits. -/
def digitVal (c : Char) : Option Nat :=
  if c.isDigit then some (c.toNat - 48) else none

/-- Read exactly `w` decimal digits into the accumulator. -/
def parseFixedDigits : Nat → Nat → List Char → Option (Nat × List Char)
  | 0, acc, cs => some (acc, cs)
  | w + 1, acc, c :: cs =>
      match digitVal c with
      | some d => parseFixedDigits w (acc * 10 + d) cs
      | none => none
  | _ + 1, _, [] => none

/-- Modelled from the spec: the timestamp half of the "matching parser" the
spec round-trip property appeals to (no parser exists in src/log.py).
Reads `YYYY-MM-DDTHH:MM:SS[.ffffff]+00:00`, the microsecond field taken as
0 when absent. -/
def parseIso (cs : List Char) : Option (Datetime × List Char) :=
  (parseFixedDigits 4 0 cs).bind fun yc =>
  (expect ['-'] yc.2).bind fun cs1 =>
  (parseFixedDigits 2 0 cs1).bind fun moc =>
  (expect ['-'] moc.2).bind fun cs2 =>
  (parseFixedDigits 2 0 cs2).bind fun dc =>
  (expect ['T'] dc.2).bind fun cs3 =>
  (parseFixedDigits 2 0 cs3).bind fun hc =>
  (expect [':'] hc.2).bind fun cs4 =>
  (parseFixedDigits 2 0 cs4).bind fun mic =>
  (expect [':'] mic.2).bind fun cs5 =>
  (parseFixedDigits 2 0 cs5).bind fun sc =>
  if sc.2.take 1 = ['.'] then
    (parseFixedDigits 6 0 (sc.2.drop 1)).bind fun usc =>
    (expect tzSuffix usc.2).map fun cs6 =>
    (⟨yc.1, moc.1, dc.1, hc.1, mic.1, sc.1, usc.1⟩, cs6)
  else
    (expect tzSuffix sc.2).map fun cs6 =>
    (⟨yc.1, moc.1, dc.1, hc.1, mic.1, sc.1, 0⟩, cs6)

/-- The value of a hexadecimal digit character. -/
def hexVal (c : Char) : Option Nat :=
  if '0' ≤ c ∧ c ≤ '9' then some (c.toNat - 48)
  else if 'a' ≤ c ∧ c ≤ 'f' then some (c.toNat - 87)
  else if 'A' ≤ c ∧ c ≤ 'F' then some (c.toNat - 55)
  else none

/-- The character denoted by a short JSON escape `\<c>`. -/
def unescapeShort (c : Char) : Option Char :=
  if c = '"' then some '"'
  else if c = '\\' then some '\\'
  else if c = '/' then some '/'
  else if c = 'b' then some (Char.ofNat 8)
  else if c = 't' then some (Char.ofNat 9)
  else if c = 'n' then some (Char.ofNat 10)
  else if c = 'f' then some (Char.ofNat 12)
  else if c = 'r' then some (Char.ofNat 13)
  else none

/-- Fuel-indexed body of `parseJsonString`: collect the content of a JSON
string up to its closing quote, decoding `\uXXXX` and short escapes
(surrogate pairs are out of scope: the claims only need the Basic
Multilingual Plane). -/
def parseJsonStringF : Nat → List Char → Option (List Char × List Char)
  | 0, _ => none
  | _ + 1, [] => none
  | fuel + 1, c :: cs =>
      if c = '"' then some ([], cs)
      else if c = '\\' then
        match cs with
        | 'u' :: a :: b :: c2 :: d :: rest =>
            match hexVal a, hexVal b, hexVal c2, hexVal d with
            | some ha, some hb, some hc, some hd =>
                match parseJsonStringF fuel rest with
                | some (s, r) =>
                    some (Char.ofNat (((ha * 16 + hb) * 16 + hc) * 16 + hd) :: s, r)
                | none => none
            | _, _, _, _ => none
        | e :: rest =>
            match unescapeShort e with
            | some u =>
                match parseJsonStringF fuel rest with
                | some (s, r) => some (u :: s, r)
                | none => none
            | none => none
        | [] => none
      else
        match parseJsonStringF fuel cs with
        | some (s, r) => some (c :: s, r)
        | none => none

/-- Modelled from the spec: decode a JSON string body (after the opening
quote) up to and including its closing quote.  Each step consumes at least
one character, so the input length suffices as fuel. -/
def parseJsonString (cs : List Char) : Option (List Char × List Char) :=
  parseJsonStringF (cs.length + 1) cs

/-- The `Level` with a given numeric value, if any. -/
def levelOfValue (v : Nat) : Option Level :=
  if v = 1 then some .Error
  else if v = 2 then some .Warning
  else if v = 3 then some .Log
  else if v = 4 then some .Info
  else if v = 5 then some .Debug
  else none

/-- Modelled from the spec: the "matching parser" for `json_formatter`'s
output shape — `{"time": "<iso>", "level": <value>, "message": "<text>"}` —
recovering the `Record`'s timestamp, severity and message. -/
def parseRecordChars (cs : List Char) : Option Record :=
  (expect (jsonSegTime ++ ['"']) cs).bind fun cs1 =>
  (parseIso cs1).bind fun tc =>
  (expect ('"' :: jsonSegLevel) tc.2).bind fun cs2 =>
  (parseFixedDigits 1 0 cs2).bind fun vc =>
  (levelOfValue vc.1).bind fun lvl =>
  (expect (jsonSegMessage ++ ['"']) vc.2).bind fun cs3 =>
  (parseJsonString cs3).bind fun mc =>
  (expect jsonSegClose mc.2).bind fun cs4 =>
  if cs4.isEmpty then some ⟨tc.1, lvl, String.mk mc.1⟩ else none

/-- Modelled from the spec: the matching parser on `String`s. -/
def parseRecord (s : String) : Option Record :=
  parseRecordChars s.data

/-- Every character of the string is ASCII (code point below 128). -/
def isAsciiStr (s : String) : Bool :=
  s.data.all (fun c => c.toNat < 128)

/-! ## Theorems -/

/-- The spec's rank table coincides with the enum's `auto()` numbering. -/
theorem specRank_eq_value (l : Level) : specRank l = l.value := by
  cases l <;> rfl

/-- C1: a `log(message, S)` call writes one formatted line plus newline to
every file sink iff the file threshold `T` (stack top) satisfies
`rank(T) ≥ rank(S)`, and independently writes one line to the console iff
console output is enabled and the console threshold's rank is `≥ rank(S)`;
no exception is raised. -/
theorem log_filter_iff (lg : Log) (t : Datetime) (m : String) (s : Level)
    (ft ct : Level) (fr cr : List Level)
    (hf : lg._file_levels = ft :: fr) (hc : lg._levels = ct :: cr) :
    lg.log t m (.lvl s) =
      (lg,
        ⟨(if specRank ft ≥ specRank s then
            lg._opaths.map fun p => (p, lg._formatter ⟨t, s, m⟩ ++ "\n")
          else []),
         (if lg._stdout = true ∧ specRank ct ≥ specRank s then
            [lg._stdout_formatter ⟨t, s, m⟩]
          else []),
         none⟩) := by
  simp only [Log.log, hf, hc, specRank_eq_value]
  rcases hst : lg._stdout with _ | _ <;> simp [hst]

/-- C1 witness: a logger with one file sink and threshold `Warning` on both
channels, logging at severity `Error`, writes the line to the file sink and
the console. -/
theorem log_filter_iff_witness :
    (Log.init ["f"] .Warning json_formatter true none stdout_formatter)._file_levels
        = [Level.Warning] ∧
    (Log.init ["f"] .Warning json_formatter true none stdout_formatter)._levels
        = [Level.Warning] ∧
    (Log.init ["f"] .Warning json_formatter true none stdout_formatter).log
        ⟨2020, 1, 2, 3, 4, 5, 0⟩ "a" (.lvl .Error) =
      (Log.init ["f"] .Warning json_formatter true none stdout_formatter,
        ⟨(if specRank .Warning ≥ specRank .Error then
            (Log.init ["f"] .Warning json_formatter true none stdout_formatter)._opaths.map
              fun p => (p, (Log.init ["f"] .Warning json_formatter true none
                stdout_formatter)._formatter ⟨⟨2020, 1, 2, 3, 4, 5, 0⟩, .Error, "a"⟩ ++ "\n")
          else []),
         (if (Log.init ["f"] .Warning json_formatter true none stdout_formatter)._stdout = true
              ∧ specRank .Warning ≥ specRank .Error then
            [(Log.init ["f"] .Warning json_formatter true none stdout_formatter)._stdout_formatter
              ⟨⟨2020, 1, 2, 3, 4, 5, 0⟩, .Error, "a"⟩]
          else []),
         none⟩) :=
  ⟨rfl, rfl,
    log_filter_iff (Log.init ["f"] .Warning json_formatter true none stdout_formatter)
      ⟨2020, 1, 2, 3, 4, 5, 0⟩ "a" .Error .Warning .Warning [] [] rfl rfl⟩

/-- C2 (code bug witness): on a global logger whose stacks are
`[Log, Debug]` (top `Debug`), the member pops do return the removed
`Debug`, but the facade pops — whose docstrings claim they return the
popped level — remove the stack top while returning `None`: the facade
functions have no `return` statement. -/
theorem facade_pop_returns_none :
    ((((Log.initDefault []).file_level (some (.lvl .Debug))).1._file_levels
        = [Level.Debug, Level.Log]) ∧
     (((Log.initDefault []).file_level (some (.lvl .Debug))).1.file_level none
        = (Log.initDefault [], .ok (some .Debug))) ∧
     (file_level (some ((Log.initDefault []).file_level (some (.lvl .Debug))).1) none
        = (some (Log.initDefault []), .ok none))) ∧
    ((((Log.initDefault []).level (some (.lvl .Debug))).1._levels
        = [Level.Debug, Level.Log]) ∧
     (((Log.initDefault []).level (some (.lvl .Debug))).1.level none
        = (Log.initDefault [], .ok (some .Debug))) ∧
     (level (some ((Log.initDefault []).level (some (.lvl .Debug))).1) none
        = (some (Log.initDefault []), .ok none))) :=
  ⟨⟨rfl, rfl, rfl⟩, ⟨rfl, rfl, rfl⟩⟩

/-- C3: `_ensure_level` is the identity on `Level` values, maps each
severity's lower-case name back to it, and fails with
`ValueError("Invalid level name: ...")` on every other string. -/
theorem ensure_level_spec :
    (∀ s : Level, _ensure_level (.lvl s) = .ok s) ∧
    (∀ s : Level, _ensure_level (.str s.nameLower) = .ok s) ∧
    (∀ str : String, str ∉ ["error", "warning", "log", "info", "debug"] →
        _ensure_level (.str str)
          = .error (.valueError ["Invalid level name: " ++ str])) := by
  refine ⟨fun s => rfl, fun s => by cases s <;> rfl, fun str h => ?_⟩
  simp only [List.mem_cons, List.not_mem_nil, or_false, not_or] at h
  obtain ⟨h1, h2, h3, h4, h5⟩ := h
  simp [_ensure_level, h1, h2, h3, h4, h5]

/-- C3 witness: `"bogus"` is none of the five names and is rejected. -/
theorem ensure_level_spec_witness :
    "bogus" ∉ ["error", "warning", "log", "info", "debug"] ∧
    _ensure_level (.str "bogus")
      = .error (.valueError ["Invalid level name: " ++ "bogus"]) :=
  ⟨by decide, ensure_level_spec.2.2 "bogus" (by decide)⟩

/-- C4: popping a length-1 level stack (file or console channel) raises
`ValueError` and returns the logger state — stacks included — unchanged. -/
theorem pop_singleton_fails (lg : Log) :
    (∀ x, lg._file_levels = [x] →
        lg.file_level none = (lg, .error (.valueError []))) ∧
    (∀ y, lg._levels = [y] →
        lg.level none = (lg, .error (.valueError []))) := by
  constructor
  · intro x hx
    simp [Log.file_level, hx]
  · intro y hy
    simp [Log.level, hy]

/-- C4 witness: a freshly constructed logger has singleton stacks and both
pops fail, leaving the state unchanged. -/
theorem pop_singleton_fails_witness :
    (Log.initDefault [])._file_levels = [Level.Log] ∧
    (Log.initDefault []).file_level none
      = (Log.initDefault [], .error (.valueError [])) :=
  ⟨rfl, (pop_singleton_fails (Log.initDefault [])).1 Level.Log rfl⟩

/-- C5: pushing a level and then popping on either channel returns the
pushed value and restores the logger exactly, so every subsequent `log`
call behaves as it would have without the pair. -/
theorem push_pop_id (lg : Log) (v w cw : Level) (fr cr : List Level)
    (hf : lg._file_levels = w :: fr) (hc : lg._levels = cw :: cr) :
    ((lg.file_level (some (.lvl v))).2 = .ok none ∧
      (lg.file_level (some (.lvl v))).1.file_level none = (lg, .ok (some v))) ∧
    ((lg.level (some (.lvl v))).2 = .ok none ∧
      (lg.level (some (.lvl v))).1.level none = (lg, .ok (some v))) ∧
    (∀ t m s, ((lg.file_level (some (.lvl v))).1.file_level none).1.log t m s
        = lg.log t m s) ∧
    (∀ t m s, ((lg.level (some (.lvl v))).1.level none).1.log t m s
        = lg.log t m s) := by
  have hfile : (lg.file_level (some (.lvl v))).1.file_level none = (lg, .ok (some v)) := by
    show Log.file_level { lg with _file_levels := v :: lg._file_levels } none
        = (lg, .ok (some v))
    simp only [Log.file_level, hf]
    rw [← hf]
  have hcons : (lg.level (some (.lvl v))).1.level none = (lg, .ok (some v)) := by
    show Log.level { lg with _levels := v :: lg._levels } none = (lg, .ok (some v))
    simp only [Log.level, hc]
    rw [← hc]
  exact ⟨⟨rfl, hfile⟩, ⟨rfl, hcons⟩,
    fun t m s => by rw [hfile], fun t m s => by rw [hcons]⟩

/-- C5 witness: push `Debug` then pop on the default logger returns `Debug`
and restores the state. -/
theorem push_pop_id_witness :
    (Log.initDefault [])._file_levels = [Level.Log] ∧
    (Log.initDefault [])._levels = [Level.Log] ∧
    ((Log.initDefault []).file_level (some (.lvl .Debug))).1.file_level none
      = (Log.initDefault [], .ok (some .Debug)) :=
  ⟨rfl, rfl,
    ((push_pop_id (Log.initDefault []) .Debug .Log .Log [] [] rfl rfl).1).2⟩

/-- C6: `set_global` installs the receiver and returns the previous
incumbent; after installing A then B, the second call returns A and the
facade `log` delegates to B. -/
theorem set_global_swap (a b : Log) (g0 : Option Log) :
    (a.set_global g0).2 = g0 ∧
    (b.set_global (a.set_global g0).1).2 = some a ∧
    (b.set_global (a.set_global g0).1).1 = some b ∧
    (∀ t m lv, log (b.set_global (a.set_global g0).1).1 t m lv
        = (some (b.log t m lv).1, (b.log t m lv).2)) :=
  ⟨rfl, rfl, rfl, fun _ _ _ => rfl⟩

/-- C7: `stdout_level=None` defaults the console stack to `[file_level]`;
the default construction seeds both stacks with `Level.Log`; and `info` on
a default-constructed logger writes nothing anywhere (rank(Info)=4 exceeds
rank(Log)=3) and raises nothing. -/
theorem default_levels_info_silent :
    (∀ (opaths : List String) (fl : Level) (fmt sfmt : Record → String) (st : Bool),
        (Log.init opaths fl fmt st none sfmt)._levels = [fl]) ∧
    (Log.initDefault [])._file_levels = [Level.Log] ∧
    (Log.initDefault [])._levels = [Level.Log] ∧
    specRank .Info = 4 ∧ specRank .Log = 3 ∧
    (∀ (opaths : List String) (t : Datetime) (m : String),
        ((Log.initDefault opaths).info t m).2 = ⟨[], [], none⟩) :=
  ⟨fun _ _ _ _ _ => rfl, rfl, rfl, rfl, rfl, fun _ _ _ => rfl⟩

/-- C9: passing a string as the severity argument of `Log.log` (or of the
facade `log` with an installed global logger) always raises before writing
anything — even for the five names `_ensure_level` accepts — because
`Log.log` never coerces text. -/
theorem log_str_level_fails (lg : Log) (t : Datetime) (m : String) (s : String) :
    (∃ e, lg.log t m (.str s) = (lg, ⟨[], [], some e⟩)) ∧
    (∃ e, log (some lg) t m (.str s) = (some lg, ⟨[], [], some e⟩)) := by
  rcases hl : lg._file_levels with _ | ⟨a, l⟩
  · exact ⟨⟨.indexError, by simp [Log.log, hl]⟩,
      ⟨.indexError, by simp [log, Log.log, hl]⟩⟩
  · exact ⟨⟨.attributeError, by simp [Log.log, hl]⟩,
      ⟨.attributeError, by simp [log, Log.log, hl]⟩⟩

/-- C10: every `log` call and every convenience call, whatever its
filtering outcome or exception, leaves the logger's state (both stacks,
sink list, console flag, formatters) unchanged, and the facade calls leave
the global slot unchanged. -/
theorem log_preserves_state (lg : Log) (t : Datetime) (m : String)
    (lv : StrOrLevel) (g : Option Log) :
    (lg.log t m lv).1 = lg ∧ (lg.error t m).1 = lg ∧ (lg.warn t m).1 = lg ∧
    (lg.info t m).1 = lg ∧ (lg.debug t m).1 = lg ∧
    (log g t m lv).1 = g ∧ (error g t m).1 = g ∧ (warn g t m).1 = g ∧
    (info g t m).1 = g ∧ (debug g t m).1 = g := by
  have key : ∀ (lg : Log) (x : StrOrLevel), (lg.log t m x).1 = lg := by
    intro lg x
    rcases x with s | l
    · rcases hl : lg._file_levels with _ | _ <;> simp [Log.log, hl]
    · rcases hl : lg._file_levels with _ | _ <;>
        rcases hc : lg._levels with _ | _ <;>
        rcases hst : lg._stdout with _ | _ <;>
        simp [Log.log, hl, hc, hst]
  have gkey : ∀ (g : Option Log) (x : StrOrLevel), (log g t m x).1 = g := by
    intro g x
    rcases g with _ | lg
    · rfl
    · simp [log, key]
  exact ⟨key lg lv, key lg _, key lg _, key lg _, key lg _,
    gkey g lv, gkey g _, gkey g _, gkey g _, gkey g _⟩

/-! ## Round-trip of the machine format (C8) -/

/-- Projection of a literal `String` to its character list. -/
theorem data_mk (L : List Char) : (String.mk L).data = L := rfl

/-- `expect` strips an exact prefix. -/
theorem expect_append (p rest : List Char) : expect p (p ++ rest) = some rest := by
  induction p with
  | nil => rfl
  | cons c p ih => simp [expect, ih]

/-- `expect` consumes one matching character at a time. -/
theorem expect_cons_self (c : Char) (p cs : List Char) :
    expect (c :: p) (c :: cs) = expect p cs := by
  simp [expect]

/-- `expect` of the empty prefix. -/
theorem expect_nil (cs : List Char) : expect [] cs = some cs := rfl

/-- Reading back a digit character. -/
theorem digitVal_digitChar : ∀ d < 10, digitVal (digitChar d) = some d := by decide

/-- Parsing a zero-padded fixed-width number recovers it. -/
theorem parseFixedDigits_padDigits (w : Nat) :
    ∀ (acc n : Nat), n < 10 ^ w → ∀ rest,
      parseFixedDigits w acc (padDigits w n ++ rest)
        = some (acc * 10 ^ w + n, rest) := by
  induction w with
  | zero =>
      intro acc n hn rest
      have hn0 : n = 0 := by omega
      subst hn0
      simp [parseFixedDigits, padDigits]
  | succ w ih =>
      intro acc n hn rest
      have hq : n / 10 ^ w < 10 := Nat.div_lt_of_lt_mul (by rw [← pow_succ]; exact hn)
      have hr : n % 10 ^ w < 10 ^ w := Nat.mod_lt _ (Nat.pos_pow_of_pos w (by norm_num))
      simp only [padDigits, List.cons_append, parseFixedDigits,
        digitVal_digitChar _ hq, List.append_eq]
      rw [ih _ _ hr]
      congr 2
      calc (acc * 10 + n / 10 ^ w) * 10 ^ w + n % 10 ^ w
          = acc * (10 ^ w * 10) + (10 ^ w * (n / 10 ^ w) + n % 10 ^ w) := by ring
        _ = acc * 10 ^ (w + 1) + n := by rw [Nat.div_add_mod, pow_succ]

/-- A character that needs no JSON escaping is emitted verbatim. -/
theorem jsonEscapeChar_plain (c : Char) (h : plainChar c) : jsonEscapeChar c = [c] := by
  obtain ⟨h1, h2, h3, h4⟩ := h
  simp only [jsonEscapeChar]
  rw [if_neg h3, if_neg h4, if_pos ⟨h1, h2⟩]

/-- Escaping is the identity on strings of unescaped printable ASCII. -/
theorem flatMap_jsonEscapeChar_plain (cs : List Char)
    (h : ∀ c ∈ cs, plainChar c) :
    cs.flatMap jsonEscapeChar = cs := by
  induction cs with
  | nil => rfl
  | cons c cs ih =>
      simp [List.flatMap_cons,
        jsonEscapeChar_plain c (h c (List.mem_cons_self c cs)),
        ih fun x hx => h x (List.mem_cons_of_mem c hx)]

/-- Padded digit strings consist of unescaped printable ASCII. -/
theorem padDigits_plain (w : Nat) : ∀ n, n < 10 ^ w →
    ∀ c ∈ padDigits w n, plainChar c := by
  induction w with
  | zero => intro n _ c hc; simp [padDigits] at hc
  | succ w ih =>
      intro n hn c hc
      have hq : n / 10 ^ w < 10 := Nat.div_lt_of_lt_mul (by rw [← pow_succ]; exact hn)
      simp only [padDigits, List.mem_cons] at hc
      rcases hc with rfl | hc'
      · have key : ∀ d < 10, plainChar (digitChar d) := by decide
        exact key _ hq
      · exact ih _ (Nat.mod_lt _ (Nat.pos_pow_of_pos w (by norm_num))) c hc'

/-- An ISO timestamp consists of unescaped printable ASCII. -/
theorem isoChars_plain (t : Datetime) (h : t.valid) :
    ∀ c ∈ isoChars t, plainChar c := by
  obtain ⟨hy, hmo, hd, hh, hmi, hs, hus⟩ := h
  have e2 : (100 : ℕ) = 10 ^ 2 := by norm_num
  have e4 : (10000 : ℕ) = 10 ^ 4 := by norm_num
  have e6 : (1000000 : ℕ) = 10 ^ 6 := by norm_num
  have step : ∀ (l1 l2 : List Char), (∀ c ∈ l1, plainChar c) →
      (∀ c ∈ l2, plainChar c) → ∀ c ∈ l1 ++ l2, plainChar c :=
    fun _ _ h1 h2 => List.forall_mem_append.mpr ⟨h1, h2⟩
  have hif : ∀ c ∈ (if t.microsecond = 0 then ([] : List Char)
      else ['.'] ++ padDigits 6 t.microsecond), plainChar c := by
    by_cases h0 : t.microsecond = 0
    · rw [if_pos h0]; intro c hc; simp at hc
    · rw [if_neg h0]
      exact step _ _ (by decide) (padDigits_plain 6 _ (e6 ▸ hus))
  unfold isoChars isoCharsSep
  refine step _ _ ?_ (by decide)
  refine step _ _ ?_ hif
  refine step _ _ ?_ (padDigits_plain 2 _ (e2 ▸ hs))
  refine step _ _ ?_ (by decide)
  refine step _ _ ?_ (padDigits_plain 2 _ (e2 ▸ hmi))
  refine step _ _ ?_ (by decide)
  refine step _ _ ?_ (padDigits_plain 2 _ (e2 ▸ hh))
  refine step _ _ ?_ (by decide)
  refine step _ _ ?_ (padDigits_plain 2 _ (e2 ▸ hd))
  refine step _ _ ?_ (by decide)
  refine step _ _ ?_ (padDigits_plain 2 _ (e2 ▸ hmo))
  exact step _ _ (padDigits_plain 4 _ (e4 ▸ hy)) (by decide)

/-- The JSON rendering of the timestamp string adds only the quotes. -/
theorem jsonStringChars_isoChars (t : Datetime) (h : t.valid) :
    jsonStringChars (isoChars t) = '"' :: isoChars t ++ ['"'] := by
  unfold jsonStringChars
  rw [flatMap_jsonEscapeChar_plain _ (isoChars_plain t h)]

/-- The matching parser recovers the timestamp from its `isoformat` text. -/
theorem parseIso_round (t : Datetime) (h : t.valid) (rest : List Char) :
    parseIso (isoChars t ++ rest) = some (t, rest) := by
  obtain ⟨y, mo, d, hr, mi, s, us⟩ := t
  obtain ⟨hy, hmo, hd, hhr, hmi, hs, hus⟩ := h
  have e2 : (100 : ℕ) = 10 ^ 2 := by norm_num
  have e4 : (10000 : ℕ) = 10 ^ 4 := by norm_num
  have e6 : (1000000 : ℕ) = 10 ^ 6 := by norm_num
  by_cases h0 : us = 0
  · subst h0
    simp only [parseIso, isoChars, isoCharsSep, if_pos rfl, tzSuffix,
      List.append_assoc, List.nil_append, List.singleton_append, List.cons_append,
      parseFixedDigits_padDigits 4 0 y (e4 ▸ hy),
      parseFixedDigits_padDigits 2 0 mo (e2 ▸ hmo),
      parseFixedDigits_padDigits 2 0 d (e2 ▸ hd),
      parseFixedDigits_padDigits 2 0 hr (e2 ▸ hhr),
      parseFixedDigits_padDigits 2 0 mi (e2 ▸ hmi),
      parseFixedDigits_padDigits 2 0 s (e2 ▸ hs),
      Nat.zero_mul, Nat.zero_add, Option.some_bind, Option.map_some',
      expect_cons_self, expect_nil, List.take_succ_cons, List.take_zero]
    simp [expect_cons_self, expect_nil]
  · simp only [parseIso, isoChars, isoCharsSep, if_neg h0, tzSuffix,
      List.append_assoc, List.nil_append, List.singleton_append, List.cons_append,
      parseFixedDigits_padDigits 4 0 y (e4 ▸ hy),
      parseFixedDigits_padDigits 2 0 mo (e2 ▸ hmo),
      parseFixedDigits_padDigits 2 0 d (e2 ▸ hd),
      parseFixedDigits_padDigits 2 0 hr (e2 ▸ hhr),
      parseFixedDigits_padDigits 2 0 mi (e2 ▸ hmi),
      parseFixedDigits_padDigits 2 0 s (e2 ▸ hs),
      parseFixedDigits_padDigits 6 0 us (e6 ▸ hus),
      Nat.zero_mul, Nat.zero_add, Option.some_bind, Option.map_some',
      expect_cons_self, expect_nil, List.take_succ_cons, List.take_zero,
      List.drop_succ_cons, List.drop_zero]
    simp [expect_cons_self, expect_nil]

/-- C8: for the record with message `"héllo"`, severity `Info` and any
timestamp (in field-width bounds), the machine formatter's output is pure
ASCII — the `é` escaped — and the matching parser recovers the original
message, severity and exact timestamp (hence equal to at least millisecond
precision). -/
theorem json_roundtrip_hello (t : Datetime) (h : t.valid) :
    isAsciiStr (json_formatter ⟨t, .Info, "héllo"⟩) = true ∧
    parseRecord (json_formatter ⟨t, .Info, "héllo"⟩) = some ⟨t, .Info, "héllo"⟩ := by
  have hiso := jsonStringChars_isoChars t h
  have hmsg : jsonStringChars "héllo".data
      = ['"', 'h', '\\', 'u', '0', '0', 'e', '9', 'l', 'l', 'o', '"'] := by decide
  have h4 : (Nat.repr (Level.value .Info)).data = ['4'] := by decide
  constructor
  · unfold isAsciiStr json_formatter
    rw [data_mk, hiso, hmsg, h4]
    have hisoAscii : (isoChars t).all (fun c => c.toNat < 128) = true :=
      List.all_eq_true.mpr fun c hc => by
        have := isoChars_plain t h c hc
        unfold plainChar at this
        simp only [decide_eq_true_eq]
        omega
    simp [List.all_append, List.all_cons, hisoAscii, jsonSegTime, jsonSegLevel,
      jsonSegMessage, jsonSegClose]
  · unfold parseRecord json_formatter
    rw [data_mk, hiso, hmsg, h4]
    have hp4 : ∀ rest, parseFixedDigits 1 0 ('4' :: rest) = some (4, rest) :=
      fun _ => rfl
    have hl4 : levelOfValue 4 = some Level.Info := rfl
    simp only [parseRecordChars, jsonSegTime, jsonSegLevel, jsonSegMessage,
      jsonSegClose, List.append_assoc, List.cons_append, List.singleton_append,
      List.nil_append, expect_cons_self, expect_nil, Option.some_bind,
      parseIso_round t h, hp4, hl4]
    rfl

/-- C8 witness: the round trip at the concrete timestamp
2020-01-02T03:04:05.678901+00:00. -/
theorem json_roundtrip_hello_witness :
    (⟨2020, 1, 2, 3, 4, 5, 678901⟩ : Datetime).valid ∧
    (isAsciiStr (json_formatter ⟨⟨2020, 1, 2, 3, 4, 5, 678901⟩, .Info, "héllo"⟩)
        = true ∧
     parseRecord (json_formatter ⟨⟨2020, 1, 2, 3, 4, 5, 678901⟩, .Info, "héllo"⟩)
        = some ⟨⟨2020, 1, 2, 3, 4, 5, 678901⟩, .Info, "héllo"⟩) :=
  ⟨by decide, json_roundtrip_hello ⟨2020, 1, 2, 3, 4, 5, 678901⟩ (by decide)⟩
